import Mathlib

/-!
Shallow embedding of the Azkaban CLI module `azkaban/__main__.py`.

Each Lean definition mirrors one function of the source file: pure
string manipulation becomes a Lean function, calls into the remote
service (`azkaban.remote.Session`) are modelled by an explicit trace of
remote responses consumed by the embedded control flow, dynamic module
loading (`azkaban.project.Project.load`) becomes an abstract loader
function, and Python exceptions become `Except` / explicit outcome
constructors.
-/

namespace AzkabanCLI

/-- A Python value as it occurs in a parsed docopt argument dictionary:
a string, a boolean flag, a list of strings, or `None`. -/
inductive PyVal where
  | str (s : String)
  | bool (b : Bool)
  | list (l : List String)
  | none
  deriving DecidableEq, Repr

/-- Key transformation performed by `_forward` on a forwarded argument
name: `'_%s' % (k.lower().lstrip('-').replace('-', '_'), )` — lowercase
every character, strip leading dashes, turn the remaining dashes into
underscores (the pattern `'-'` is a single character, so `replace` is a
character map), and put `'_'` in front. -/
def argKey (k : String) : String :=
  "_" ++ ⟨((k.data.map Char.toLower).dropWhile (fun c => c = '-')).map
    (fun c => if c = '-' then '_' else c)⟩

/-- Embedding of `_forward(args, names)`: keep exactly the entries of
`args` whose key is in `names`, under the transformed key `argKey`. -/
def forward (args : List (String × PyVal)) (names : List String) :
    List (String × PyVal) :=
  (args.filter (fun kv => decide (kv.1 ∈ names))).map
    (fun kv => (argKey kv.1, kv.2))

/-- Rightmost split on a character, as in Python `s.rsplit(c, 1)`:
returns `some (l, r)` with `s = l ++ [c] ++ r` and `c ∉ r` when `c`
occurs in `s`, and `none` otherwise. -/
def rsplit1 (c : Char) : List Char → Option (List Char × List Char)
  | [] => Option.none
  | x :: xs =>
    match rsplit1 c xs with
    | Option.some (l, r) => Option.some (x :: l, r)
    | Option.none => if x = c then Option.some ([], xs) else Option.none

/-- Python `_project.rsplit(':', 1)` lifted to `String`. -/
def rsplitColon (s : String) : Option (String × String) :=
  match rsplit1 ':' s.data with
  | Option.some (l, r) => Option.some (⟨l⟩, ⟨r⟩)
  | Option.none => Option.none

/-- Python `s.split(c)` on a single-character separator, on the
character list: always at least one (possibly empty) field. -/
def splitChar (c : Char) : List Char → List (List Char)
  | [] => [[]]
  | x :: xs =>
    match splitChar c xs, decide (x = c) with
    | rest, true => [] :: rest
    | [], false => [[x]]
    | h :: t, false => (x :: h) :: t

/-- Python `s.split(c)` lifted to `String`. -/
def pySplit (s : String) (c : Char) : List String :=
  (splitChar c s.data).map (fun l => ⟨l⟩)

/-- Python `sep.join(parts)`. -/
def joinWith (sep : String) : List String → String
  | [] => ""
  | [x] => x
  | x :: xs => x ++ sep ++ joinWith sep xs

/-- Python `s.endswith(suffix)`. -/
def strEndsWith (s suffix : String) : Bool :=
  suffix.data.reverse.isPrefixOf s.data.reverse

/-- The in-memory project definition used by this module: a declared
name, jobs (name to option mapping), file entries
`(local path, archive path)`, and a properties mapping.  Mirrors the
parts of `azkaban.project.Project` that `__main__.py` reads. -/
structure ProjectModel where
  name : String
  jobs : List (String × List (String × String))
  files : List (String × String)
  properties : List (String × String)
  deriving DecidableEq, Repr

/-- Modelled from the spec: the outcome of one call to
`azkaban.project.Project.load` (the loader itself lives outside this
module); §9 describes it as a loader that either yields a concrete
project or fails with a distinguishable "not loadable" condition
(`ImportError`) or some other internal error. -/
inductive LoadResult where
  | ok (project : ProjectModel)
  | importError (msg : String)
  | otherError (msg : String)
  deriving DecidableEq, Repr

/-- A loader: receives the module path and, when the reference was
colon-split, the requested project name — the two call shapes
`Project.load(path, name)` and `Project.load(path)` of the source. -/
def Loader : Type := String → Option String → LoadResult

/-- An exception escaping `_parse_project`. -/
inductive ParseErr where
  | importError (msg : String)
  | otherError (msg : String)
  deriving DecidableEq, Repr

/-- Line 122 of the source:
`_project = _project or Config().get_option('azkaban', 'project', 'jobs')`.
`config_project` models the persisted `azkaban.project` option;
`get_option` falls back to the literal `"jobs"` when it is absent. -/
def effectiveRef (config_project : Option String) (_project : Option String) :
    String :=
  match _project with
  | Option.none => config_project.getD "jobs"
  | Option.some s => if s = "" then config_project.getD "jobs" else s

/-- Embedding of `_parse_project(_project, require_project)`.  The name
component is an `Option String` mirroring the Python local variable
`name`, which is only bound on some branches; the project component is
`none` exactly where Python binds `project = None`. -/
def _parse_project (loader : Loader) (config_project : Option String)
    (_project : Option String) (require_project : Bool := false) :
    Except ParseErr (Option String × Option ProjectModel) :=
  let ref := effectiveRef config_project _project
  match rsplitColon ref with
  | Option.some (path, name) =>
    match loader path (Option.some name) with
    | LoadResult.ok project => Except.ok (Option.some name, Option.some project)
    | LoadResult.importError m => Except.error (ParseErr.importError m)
    | LoadResult.otherError m => Except.error (ParseErr.otherError m)
  | Option.none =>
    match loader ref Option.none with
    | LoadResult.ok project =>
      Except.ok (Option.some project.name, Option.some project)
    | LoadResult.importError m =>
      if !require_project then Except.ok (Option.some ref, Option.none)
      else Except.error (ParseErr.importError m)
    | LoadResult.otherError m => Except.error (ParseErr.otherError m)

/-- Embedding of `_get_project_name(_project)`: first component of
`_parse_project` with `require_project` left at its default `False`. -/
def _get_project_name (loader : Loader) (config_project : Option String)
    (_project : Option String) : Except ParseErr (Option String) :=
  (_parse_project loader config_project _project).map Prod.fst

/-- The guidance message raised by `_load_project` when the project
module cannot be imported. -/
def projectNotConfiguredMsg : String :=
  "This command requires a project configuration module which was not " ++
  "found.\nYou can specify another location using the `--project` option."

/-- An exception escaping `_load_project`: either the domain
`AzkabanError` with the guidance message, or any non-`ImportError`
exception propagating unmodified. -/
inductive LoadProjectErr where
  | azkaban (msg : String)
  | other (msg : String)
  deriving DecidableEq, Repr

/-- Embedding of `_load_project(_project)`: calls `_parse_project` with
`require_project=True`, translating `ImportError` into the
`AzkabanError` guidance message. -/
def _load_project (loader : Loader) (config_project : Option String)
    (_project : Option String) :
    Except LoadProjectErr (Option ProjectModel) :=
  match _parse_project loader config_project _project true with
  | Except.ok (_, project) => Except.ok project
  | Except.error (ParseErr.importError _) =>
    Except.error (LoadProjectErr.azkaban projectNotConfiguredMsg)
  | Except.error (ParseErr.otherError m) =>
    Except.error (LoadProjectErr.other m)

/-- Modelled from the spec: the remote response to one
`session.upload_project` call (the session lives outside this module).
§6 has it return `{project_id, version}` on success and fail with an
error whose message distinguishes the "project does not exist"
condition; every failure reaches this module as an `AzkabanError`. -/
inductive UpResp where
  | ok (projectId : String) (version : String)
  | err (msg : String)
  deriving DecidableEq, Repr

/-- Modelled from the spec: the remote response to one
`session.create_project` call — success, or an `AzkabanError`. -/
inductive CrResp where
  | ok
  | err (msg : String)
  deriving DecidableEq, Repr

/-- What the upload loop of `upload_project` / `build_project` does in
the end: success with the remote result, an `AzkabanError` propagating
to the caller, or `incomplete` when the simulated response trace ran
out while the loop was still running. -/
inductive UpOutcome where
  | success (projectId : String) (version : String)
  | failure (msg : String)
  | incomplete
  deriving DecidableEq, Repr

/-- One run of the upload loop: its outcome, the number of upload
calls issued, and the argument pairs of the create-project calls
issued, in order. -/
structure UpRun where
  outcome : UpOutcome
  uploads : Nat
  createCalls : List (String × String)
  deriving DecidableEq, Repr

/-- The `while True` loop shared by `upload_project` (lines 244-257)
and `build_project` (lines 288-302): attempt the upload; on success
break; on `AzkabanError` either call
`session.create_project(pname, pname)` and loop again, or re-raise.
`shouldCreate` is the guard of the `if` in the `except` branch,
applied to the error message; the remote is a trace of upload
responses and create responses, consumed one per call. -/
def uploadLoopWith (shouldCreate : String → Bool) (pname : String) :
    List UpResp → List CrResp → UpRun
  | [], _ => ⟨UpOutcome.incomplete, 0, []⟩
  | UpResp.ok pid ver :: _, _ => ⟨UpOutcome.success pid ver, 1, []⟩
  | UpResp.err m :: ups, crs =>
    if shouldCreate m then
      match crs with
      | [] => ⟨UpOutcome.incomplete, 1, []⟩
      | CrResp.ok :: crs =>
        let rest := uploadLoopWith shouldCreate pname ups crs
        ⟨rest.outcome, rest.uploads + 1, (pname, pname) :: rest.createCalls⟩
      | CrResp.err c :: _ => ⟨UpOutcome.failure c, 1, [(pname, pname)]⟩
    else ⟨UpOutcome.failure m, 1, []⟩

/-- The loop of `upload_project`: line 252 guards the create-and-retry
branch on `_create` alone — the error message is not inspected. -/
def upload_project (project_name : String) (_create : Bool)
    (ups : List UpResp) (crs : List CrResp) : UpRun :=
  uploadLoopWith (fun _ => _create) project_name ups crs

/-- The message suffix `build_project` tests for (line 297). -/
def missingSuffix : String := "doesn\x27t exist."

/-- The loop of `build_project`: line 297 guards the create-and-retry
branch on `_create and str(err).endswith("doesn't exist.")`. -/
def build_upload_loop (project_name : String) (_create : Bool)
    (ups : List UpResp) (crs : List CrResp) : UpRun :=
  uploadLoopWith (fun m => _create && strEndsWith m missingSuffix)
    project_name ups crs

/-- The arguments as handed to
`session.run_workflow` by `run_flow` (lines 225-232). -/
structure RunWorkflowArgs where
  name : String
  flow : String
  jobs : List String
  concurrent : Bool
  on_failure : String
  emails : Option (List String)
  deriving DecidableEq, Repr

/-- Embedding of the argument mapping in `run_flow`:
`concurrent=not _skip`, `on_failure='cancel' if _kill else 'finish'`,
`emails=_emails.split(',') if _emails else None`.  `_emails` is an
`Option String` because the `--emails` option may be absent (`None`);
the empty string is falsy like `None`. -/
def run_flow (project_name _workflow : String) (_job : List String)
    (_skip _kill : Bool) (_emails : Option String) : RunWorkflowArgs :=
  { name := project_name
    flow := _workflow
    jobs := _job
    concurrent := !_skip
    on_failure := if _kill then "cancel" else "finish"
    emails :=
      match _emails with
      | Option.none => Option.none
      | Option.some s =>
        if s = "" then Option.none else Option.some (pySplit s ',') }

/-- What the simulated remote does when `view_log` iterates the log
stream: produce the lines, or fail with HTTP status 500 mid-iteration
(the only transport error the source handles). -/
inductive LogFetch where
  | lines (ls : List String)
  | http500
  deriving DecidableEq, Repr

/-- Result of `view_log`: the printed lines, or a domain `AzkabanError`
carrying a formatted message — the raw `HTTPError` never escapes. -/
inductive LogResult where
  | output (ls : List String)
  | domainError (msg : String)
  deriving DecidableEq, Repr

/-- Python `repr` of a list of strings, as `'%s' % (_job, )` renders
the `JOB` argument list in the error message. -/
def pyListRepr (l : List String) : String :=
  "[" ++ joinWith ", " (l.map (fun s => "\x27" ++ s ++ "\x27")) ++ "]"

/-- Modelled from the spec: `AzkabanError(fmt, *args)` (defined in
`azkaban.util`, outside this module) carries the format string rendered
with its arguments; §4.5 requires the domain error to name the
execution id and job.  Embedding of `view_log` (lines 204-219): on an
`HTTPError` during iteration, re-raise the domain error whose message
interpolates `_execution` (and the `_job` list, when non-empty) into
the literal format strings of lines 215-219. -/
def view_log (_execution : String) (_job : List String) (fetch : LogFetch) :
    LogResult :=
  match fetch with
  | LogFetch.lines ls => LogResult.output ls
  | LogFetch.http500 =>
    match _job with
    | [] => LogResult.domainError ("Execution " ++ _execution ++ " not found.")
    | _ =>
      LogResult.domainError
        ("Execution " ++ _execution ++ " and/or job " ++ pyListRepr _job ++
          " not found.")

/-- Python tuple order on `(local path, archive path)` file entries,
the order `sorted(project.files)` sorts by (line 192). -/
def fileLe (a b : String × String) : Prop :=
  a.1 < b.1 ∨ (a.1 = b.1 ∧ a.2 ≤ b.2)

instance : DecidableRel fileLe := fun a b => by
  unfold fileLe; infer_instance

instance : IsTotal (String × String) fileLe := by
  constructor
  intro a b
  rcases lt_trichotomy a.1 b.1 with h | h | h
  · exact Or.inl (Or.inl h)
  · rcases le_total a.2 b.2 with h2 | h2
    · exact Or.inl (Or.inr ⟨h, h2⟩)
    · exact Or.inr (Or.inr ⟨h.symm, h2⟩)
  · exact Or.inr (Or.inl h)

instance : IsTrans (String × String) fileLe := by
  constructor
  intro a b c hab hbc
  rcases hab with h1 | ⟨h1, h1b⟩
  · rcases hbc with h2 | ⟨h2, _⟩
    · exact Or.inl (h1.trans h2)
    · exact Or.inl (h2 ▸ h1)
  · rcases hbc with h2 | ⟨h2, h2b⟩
    · exact Or.inl (h1 ▸ h2)
    · exact Or.inr ⟨h1.trans h2, h1b.trans h2b⟩

/-- Order on `(name, options)` job entries used by
`sorted(project.jobs.items())`: job names are dictionary keys, hence
pairwise distinct, so Python tuple comparison never goes past the
name. -/
def jobLe (a b : String × List (String × String)) : Prop :=
  a.1 ≤ b.1

instance : DecidableRel jobLe := fun a b => by
  unfold jobLe; infer_instance

instance : IsTotal (String × List (String × String)) jobLe :=
  ⟨fun a b => le_total a.1 b.1⟩

instance : IsTrans (String × List (String × String)) jobLe :=
  ⟨fun _ _ _ hab hbc => le_trans hab hbc⟩

/-- Embedding of `sorted(project.files)` (line 192). -/
def sortedFiles (p : ProjectModel) : List (String × String) :=
  List.insertionSort fileLe p.files

/-- Embedding of `sorted(project.jobs.items())` (line 197). -/
def sortedJobs (p : ProjectModel) :
    List (String × List (String × String)) :=
  List.insertionSort jobLe p.jobs

/-- Embedding of `sorted(project.jobs)` (line 201): the job names in sorted order. -/
def sortedNames (p : ProjectModel) : List String :=
  List.insertionSort (· ≤ ·) (p.jobs.map Prod.fst)

/-- Embedding of `opts.get(o, '')` on the option mapping of one job. -/
def optGetD (opts : List (String × String)) (o : String) : String :=
  match opts.find? (fun kv => kv.1 = o) with
  | Option.some kv => kv.2
  | Option.none => ""

/-- The listing branches of `view_info` (lines 191-202), as the list of
lines written to standard output.  `rel` models `osp.relpath` (a pure
function of the current working directory, which is fixed for one
invocation); `_files` and `_options` are the `--files` and `--options`
arguments.  The function reads only the in-memory project: no session
is constructed and no remote call is modelled because the source makes
none. -/
def view_info_lines (p : ProjectModel) (rel : String → String)
    (_files : Bool) (_options : Option String) : List String :=
  if _files then
    (sortedFiles p).map (fun f => rel f.1 ++ "\t" ++ f.2)
  else
    match _options with
    | Option.some opts =>
      let option_names := pySplit opts ','
      (sortedJobs p).map (fun j =>
        j.1 ++ "\t" ++ joinWith "\t" (option_names.map (optGetD j.2)))
    | Option.none => sortedNames p

/-- The parsed docopt dictionary for the invocation
`azkaban run -e a@x,b@y wf`: every command, option and positional
argument of the usage string is a key (`JOB` repeats in the usage
patterns, so docopt collects it as a list). -/
def runDocoptArgs : List (String × PyVal) :=
  [("build", PyVal.bool false), ("info", PyVal.bool false),
   ("log", PyVal.bool false), ("run", PyVal.bool true),
   ("upload", PyVal.bool false),
   ("--alias", PyVal.none), ("--create", PyVal.bool false),
   ("--emails", PyVal.str "a@x,b@y"), ("--files", PyVal.bool false),
   ("--help", PyVal.bool false), ("--include-properties", PyVal.bool false),
   ("--kill", PyVal.bool false), ("--log", PyVal.bool false),
   ("--options", PyVal.none), ("--project", PyVal.none),
   ("--replace", PyVal.bool false), ("--skip", PyVal.bool false),
   ("--url", PyVal.none), ("--version", PyVal.bool false),
   ("EXECUTION", PyVal.none), ("JOB", PyVal.list []),
   ("WORKFLOW", PyVal.str "wf"), ("ZIP", PyVal.none)]

/-- The names `main` forwards to `run_flow` (line 355): note
`'--email'`, not `'--emails'`. -/
def runForwardNames : List String :=
  ["WORKFLOW", "JOB", "--skip", "--url", "--alias", "--kill", "--email"]

/-- Statement that `sub` occurs as a contiguous substring of `s`. -/
def containsStr (s sub : String) : Prop :=
  ∃ l r, s = l ++ sub ++ r

/-!
Helper lemmas about the rightmost-colon split.
-/

theorem rsplit1_eq_none {c : Char} :
    ∀ {s : List Char}, rsplit1 c s = Option.none → c ∉ s := by
  intro s
  induction s with
  | nil => intro _; simp
  | cons x xs ih =>
    intro h
    cases hx : rsplit1 c xs with
    | some p => simp [rsplit1, hx] at h
    | none =>
      simp only [rsplit1, hx] at h
      by_cases hc : x = c
      · simp [hc] at h
      · intro hmem
        rcases List.mem_cons.mp hmem with h1 | h2
        · exact hc h1.symm
        · exact ih hx h2

theorem rsplit1_sound {c : Char} :
    ∀ {s l r : List Char}, rsplit1 c s = Option.some (l, r) →
      s = l ++ c :: r ∧ c ∉ r := by
  intro s
  induction s with
  | nil => intro l r h; simp [rsplit1] at h
  | cons x xs ih =>
    intro l r h
    cases hx : rsplit1 c xs with
    | some p =>
      obtain ⟨l', r'⟩ := p
      simp only [rsplit1, hx] at h
      obtain ⟨rfl, rfl⟩ : x :: l' = l ∧ r' = r := by
        simpa using h
      obtain ⟨hs, hr⟩ := ih hx
      exact ⟨by simp [hs], hr⟩
    | none =>
      simp only [rsplit1, hx] at h
      by_cases hc : x = c
      · simp only [hc, if_pos rfl] at h
        obtain ⟨rfl, rfl⟩ : ([] : List Char) = l ∧ xs = r := by
          simpa using h
        exact ⟨by simp [hc], rsplit1_eq_none hx⟩
      · simp [hc] at h

theorem rsplitColon_sound {s l r : String}
    (h : rsplitColon s = Option.some (l, r)) :
    s = l ++ ":" ++ r ∧ ':' ∉ r.data := by
  unfold rsplitColon at h
  cases hx : rsplit1 ':' s.data with
  | none => rw [hx] at h; exact absurd h (by simp)
  | some p =>
    obtain ⟨l', r'⟩ := p
    rw [hx] at h
    obtain ⟨rfl, rfl⟩ : (⟨l'⟩ : String) = l ∧ (⟨r'⟩ : String) = r := by
      simpa using h
    obtain ⟨hs, hr⟩ := rsplit1_sound hx
    constructor
    · apply String.ext
      simpa [String.data_append] using hs
    · exact hr

theorem rsplitColon_isSome {s : String} (h : ':' ∈ s.data) :
    (rsplitColon s).isSome := by
  unfold rsplitColon
  cases hx : rsplit1 ':' s.data with
  | none => exact absurd h (rsplit1_eq_none hx)
  | some p => simp

/-!
Claims.
-/

/-- C9: `_forward(args, names)` returns exactly those entries of `args`
whose key is in `names`, each value unchanged, under the key obtained
by lowercasing, stripping leading dashes, replacing `-` with `_` and
prefixing `_`; names absent from `args` contribute nothing — in
particular forwarding `'--email'` for the `run` command, whose parsed
option is `'--emails'`, produces no `_emails` argument. -/
theorem forward_keeps_exactly_named_entries :
    (∀ (args : List (String × PyVal)) (names : List String)
        (k : String) (v : PyVal),
        (k, v) ∈ forward args names ↔
          ∃ k0, (k0, v) ∈ args ∧ k0 ∈ names ∧ k = argKey k0) ∧
    ("--emails", PyVal.str "a@x,b@y") ∈ runDocoptArgs ∧
    "_emails" ∉ (forward runDocoptArgs runForwardNames).map Prod.fst := by
  refine ⟨?_, by decide, by decide⟩
  intro args names k v
  constructor
  · intro h
    simp only [forward, List.mem_map, List.mem_filter] at h
    obtain ⟨⟨k0, v0⟩, ⟨hmem, hp⟩, heq⟩ := h
    obtain ⟨rfl, rfl⟩ : argKey k0 = k ∧ v0 = v := by
      simpa using heq
    exact ⟨k0, hmem, of_decide_eq_true hp, rfl⟩
  · rintro ⟨k0, hmem, hin, rfl⟩
    simp only [forward, List.mem_map, List.mem_filter]
    exact ⟨(k0, v), ⟨hmem, decide_eq_true hin⟩, rfl⟩

/-- C3: the argument mapping inside `run_flow` is as claimed —
`_kill` true/false maps to failure policy `"cancel"`/`"finish"`,
`_skip = false` maps to `concurrent = true`, an absent or empty
`--emails` value sends no recipients, and `"a@x,b@y"` is split into
`["a@x", "b@y"]` — but `main` forwards the name `'--email'` while the
parsed option is `'--emails'`, so the forwarded keyword arguments for
the `run` command never contain `_emails` and `run_flow` is invoked
without its required `_emails` parameter. -/
theorem run_flow_mapping_but_emails_never_forwarded :
    (∀ pn wf jobs em,
        (run_flow pn wf jobs false true em).on_failure = "cancel" ∧
        (run_flow pn wf jobs false true em).concurrent = true ∧
        (run_flow pn wf jobs true false em).on_failure = "finish") ∧
    (∀ pn wf jobs sk kl,
        (run_flow pn wf jobs sk kl Option.none).emails = Option.none ∧
        (run_flow pn wf jobs sk kl (Option.some "")).emails =
          Option.none ∧
        (run_flow pn wf jobs sk kl (Option.some "a@x,b@y")).emails =
          Option.some ["a@x", "b@y"]) ∧
    (forward runDocoptArgs runForwardNames).map Prod.fst =
      ["_alias", "_kill", "_skip", "_url", "_job", "_workflow"] ∧
    "_emails" ∉ (forward runDocoptArgs runForwardNames).map Prod.fst := by
  exact ⟨fun pn wf jobs em => ⟨rfl, rfl, rfl⟩,
    fun pn wf jobs sk kl => ⟨rfl, rfl, rfl⟩, by decide, by decide⟩

/-- C5: for every project reference containing at least one colon,
`_parse_project` splits it on the rightmost colon into `(path, name)` —
`name` contains no further colon — and loads project `name` from module
path `path`; a successful load returns that name and project, and any
load failure propagates unmodified. -/
theorem parse_project_splits_rightmost_colon
    (s : String) (h : ':' ∈ s.data) :
    ∃ path name : String,
      s = path ++ ":" ++ name ∧ ':' ∉ name.data ∧
      ∀ (loader : Loader) (cfg : Option String) (req : Bool),
        (∀ p, loader path (Option.some name) = LoadResult.ok p →
          _parse_project loader cfg (Option.some s) req =
            Except.ok (Option.some name, Option.some p)) ∧
        (∀ m, loader path (Option.some name) = LoadResult.importError m →
          _parse_project loader cfg (Option.some s) req =
            Except.error (ParseErr.importError m)) ∧
        (∀ m, loader path (Option.some name) = LoadResult.otherError m →
          _parse_project loader cfg (Option.some s) req =
            Except.error (ParseErr.otherError m)) := by
  have hs : s ≠ "" := by
    intro he
    rw [he] at h
    simp at h
  obtain ⟨⟨path, name⟩, hsplit⟩ : ∃ p, rsplitColon s = Option.some p := by
    cases hx : rsplitColon s with
    | none => exact absurd (rsplitColon_isSome h) (by simp [hx])
    | some p => exact ⟨p, rfl⟩
  obtain ⟨hdec, hnc⟩ := rsplitColon_sound hsplit
  refine ⟨path, name, hdec, hnc, ?_⟩
  intro loader cfg req
  have heff : effectiveRef cfg (Option.some s) = s := by
    simp [effectiveRef, hs]
  refine ⟨?_, ?_, ?_⟩ <;> intro a ha <;>
    simp [_parse_project, heff, hsplit, ha]

theorem parse_project_splits_rightmost_colon_witness :
    (':' ∈ "a/b:x:name".data) ∧
    (∃ path name : String,
      "a/b:x:name" = path ++ ":" ++ name ∧ ':' ∉ name.data ∧
      ∀ (loader : Loader) (cfg : Option String) (req : Bool),
        (∀ p, loader path (Option.some name) = LoadResult.ok p →
          _parse_project loader cfg (Option.some "a/b:x:name") req =
            Except.ok (Option.some name, Option.some p)) ∧
        (∀ m, loader path (Option.some name) = LoadResult.importError m →
          _parse_project loader cfg (Option.some "a/b:x:name") req =
            Except.error (ParseErr.importError m)) ∧
        (∀ m, loader path (Option.some name) = LoadResult.otherError m →
          _parse_project loader cfg (Option.some "a/b:x:name") req =
            Except.error (ParseErr.otherError m))) :=
  ⟨by decide, parse_project_splits_rightmost_colon "a/b:x:name" (by decide)⟩

/-- C6: a colon-free reference whose load fails with an
`ImportError`-style condition resolves to `(reference, absent)` without
raising when `require_project` is false; with `require_project` true
(`_load_project`), it surfaces the `AzkabanError` carrying the guidance
message that names the `--project` option. -/
theorem parse_project_bare_name_on_import_error
    (loader : Loader) (cfg : Option String) (s m : String)
    (hnc : ':' ∉ s.data) (hs : s ≠ "")
    (hload : loader s Option.none = LoadResult.importError m) :
    _parse_project loader cfg (Option.some s) false =
      Except.ok (Option.some s, Option.none) ∧
    _load_project loader cfg (Option.some s) =
      Except.error (LoadProjectErr.azkaban projectNotConfiguredMsg) := by
  have heff : effectiveRef cfg (Option.some s) = s := by
    simp [effectiveRef, hs]
  have hsplit : rsplitColon s = Option.none := by
    cases hx : rsplitColon s with
    | none => rfl
    | some pr =>
      obtain ⟨l, r⟩ := pr
      obtain ⟨hdec, _⟩ := rsplitColon_sound hx
      refine absurd ?_ hnc
      rw [hdec]
      simp [String.data_append]
  constructor
  · simp [_parse_project, heff, hsplit, hload]
  · simp [_load_project, _parse_project, heff, hsplit, hload]

theorem parse_project_bare_name_on_import_error_witness :
    ((':' ∉ "jobsmod".data) ∧ ("jobsmod" : String) ≠ "" ∧
      (fun _ _ => LoadResult.importError "boom" : Loader) "jobsmod"
        Option.none = LoadResult.importError "boom") ∧
    (_parse_project (fun _ _ => LoadResult.importError "boom")
        Option.none (Option.some "jobsmod") false =
      Except.ok (Option.some "jobsmod", Option.none) ∧
     _load_project (fun _ _ => LoadResult.importError "boom")
        Option.none (Option.some "jobsmod") =
      Except.error (LoadProjectErr.azkaban projectNotConfiguredMsg)) :=
  ⟨⟨by decide, by decide, rfl⟩,
    parse_project_bare_name_on_import_error
      (fun _ _ => LoadResult.importError "boom") Option.none
      "jobsmod" "boom" (by decide) (by decide) rfl⟩

/-- C8: for every reference — including an absent one, which is
substituted by the persisted default or the literal `"jobs"` — whenever
`_parse_project` returns without raising, the name component is
present, and the project component is absent only when the loader
failed with an `ImportError` on the (defaulted) reference and no load
was required. -/
theorem parse_project_name_never_absent
    (loader : Loader) (cfg : Option String) (ref : Option String)
    (req : Bool) (n : Option String) (p : Option ProjectModel)
    (h : _parse_project loader cfg ref req = Except.ok (n, p)) :
    n.isSome ∧
    (p = Option.none →
      req = false ∧
      ∃ m, loader (effectiveRef cfg ref) Option.none =
        LoadResult.importError m) := by
  cases hsplit : rsplitColon (effectiveRef cfg ref) with
  | some pr =>
    obtain ⟨path, name⟩ := pr
    simp only [_parse_project, hsplit] at h
    cases hl : loader path (Option.some name) with
    | ok proj =>
      simp only [hl] at h
      obtain ⟨h1, h2⟩ : Option.some name = n ∧ Option.some proj = p := by
        simpa using h
      exact ⟨by simp [← h1], fun hp => absurd (h2.trans hp) (by simp)⟩
    | importError m => simp [hl] at h
    | otherError m => simp [hl] at h
  | none =>
    simp only [_parse_project, hsplit] at h
    cases hl : loader (effectiveRef cfg ref) Option.none with
    | ok proj =>
      simp only [hl] at h
      obtain ⟨h1, h2⟩ :
          Option.some proj.name = n ∧ Option.some proj = p := by
        simpa using h
      exact ⟨by simp [← h1], fun hp => absurd (h2.trans hp) (by simp)⟩
    | importError m =>
      simp only [hl] at h
      cases req with
      | false =>
        obtain ⟨h1, h2⟩ :
            Option.some (effectiveRef cfg ref) = n ∧ Option.none = p := by
          simpa using h
        exact ⟨by simp [← h1], fun _ => ⟨rfl, m, rfl⟩⟩
      | true => simp at h
    | otherError m => simp [hl] at h

theorem parse_project_name_never_absent_witness :
    (_parse_project (fun _ _ => LoadResult.importError "boom")
        Option.none Option.none false =
      Except.ok (Option.some "jobs", Option.none)) ∧
    ((Option.some "jobs").isSome ∧
      ((Option.none : Option ProjectModel) = Option.none →
        false = false ∧
        ∃ m, (fun _ _ => LoadResult.importError "boom" : Loader)
            (effectiveRef Option.none Option.none) Option.none =
          LoadResult.importError m)) :=
  ⟨rfl,
    parse_project_name_never_absent
      (fun _ _ => LoadResult.importError "boom") Option.none Option.none
      false (Option.some "jobs") Option.none rfl⟩

/-- C1 counterexample: with `create_if_missing=true` and a remote whose
first upload attempt fails with the missing-project error, the loop is
not bounded by two upload attempts — when the retried upload fails for
the same reason the code creates again and retries again instead of
surfacing a fatal error: on this trace the call succeeds after three
upload calls and two create calls. -/
theorem upload_retry_not_bounded_by_two :
    upload_project "foo" true
        [UpResp.err "Project foo doesn\x27t exist.",
         UpResp.err "Project foo doesn\x27t exist.",
         UpResp.ok "1" "1"]
        [CrResp.ok, CrResp.ok] =
      ⟨UpOutcome.success "1" "1", 3, [("foo", "foo"), ("foo", "foo")]⟩ ∧
    strEndsWith "Project foo doesn\x27t exist." missingSuffix = true ∧
    ¬(upload_project "foo" true
        [UpResp.err "Project foo doesn\x27t exist.",
         UpResp.err "Project foo doesn\x27t exist.",
         UpResp.ok "1" "1"]
        [CrResp.ok, CrResp.ok]).uploads ≤ 2 :=
  ⟨rfl, by decide, by decide⟩

/-- C1 amended: with `create_if_missing=true`, a first upload failure
makes the client issue one create-project call with `(name, name)` and
retry the upload; if the create and the second upload succeed the call
succeeds with exactly one create call `(name, name)` and two upload
calls, and if creation fails its error surfaces as fatal — but if the
retried upload fails for the same reason the client creates again and
retries again, so upload attempts are unbounded (one create before
each retry) rather than capped at two. -/
theorem upload_create_retry_characterization :
    (∀ (pn m pid ver : String) ups crs,
        upload_project pn true
            (UpResp.err m :: UpResp.ok pid ver :: ups)
            (CrResp.ok :: crs) =
          ⟨UpOutcome.success pid ver, 2, [(pn, pn)]⟩) ∧
    (∀ (pn m c : String) ups crs,
        upload_project pn true (UpResp.err m :: ups)
            (CrResp.err c :: crs) =
          ⟨UpOutcome.failure c, 1, [(pn, pn)]⟩) ∧
    (∀ (pn m m2 : String) ups crs,
        upload_project pn true
            (UpResp.err m :: UpResp.err m2 :: ups) (CrResp.ok :: crs) =
          ⟨(upload_project pn true (UpResp.err m2 :: ups) crs).outcome,
           (upload_project pn true (UpResp.err m2 :: ups) crs).uploads + 1,
           (pn, pn) ::
             (upload_project pn true
                (UpResp.err m2 :: ups) crs).createCalls⟩) := by
  refine ⟨fun pn m pid ver ups crs => ?_, fun pn m c ups crs => ?_,
    fun pn m m2 ups crs => ?_⟩ <;>
    simp [upload_project, uploadLoopWith]

/-- C2 counterexample: `upload_project` with `create_if_missing=true`
does not inspect the failure reason — a first upload failure whose
message is a validation error, not the missing-project message, still
triggers a create-project call and a retried upload. -/
theorem upload_creates_on_non_missing_error :
    strEndsWith "Validation error: bad flow." missingSuffix = false ∧
    upload_project "foo" true
        [UpResp.err "Validation error: bad flow.", UpResp.ok "1" "1"]
        [CrResp.ok] =
      ⟨UpOutcome.success "1" "1", 2, [("foo", "foo")]⟩ ∧
    ¬(upload_project "foo" true
        [UpResp.err "Validation error: bad flow.", UpResp.ok "1" "1"]
        [CrResp.ok]).createCalls = [] :=
  ⟨by decide, rfl, by decide⟩

/-- C2 amended: a first upload failure for a reason other than the
missing-project condition is surfaced immediately with no
create-project call and no retry by `upload_project` whenever
`create_if_missing=false`, and by `build_project`'s upload loop — which
tests the message — regardless of `create_if_missing`; `upload_project`
with `create_if_missing=true`, however, creates and retries on any
failure. -/
theorem other_failures_surface_without_create
    (pn m : String) (c : Bool) (ups : List UpResp) (crs : List CrResp)
    (h : strEndsWith m missingSuffix = false) :
    upload_project pn false (UpResp.err m :: ups) crs =
      ⟨UpOutcome.failure m, 1, []⟩ ∧
    build_upload_loop pn c (UpResp.err m :: ups) crs =
      ⟨UpOutcome.failure m, 1, []⟩ := by
  constructor
  · simp [upload_project, uploadLoopWith]
  · simp [build_upload_loop, uploadLoopWith, h]

theorem other_failures_surface_without_create_witness :
    strEndsWith "Validation error: bad flow." missingSuffix = false ∧
    (upload_project "foo" false
        [UpResp.err "Validation error: bad flow."] [] =
      ⟨UpOutcome.failure "Validation error: bad flow.", 1, []⟩ ∧
     build_upload_loop "foo" true
        [UpResp.err "Validation error: bad flow."] [] =
      ⟨UpOutcome.failure "Validation error: bad flow.", 1, []⟩) :=
  ⟨by decide,
    other_failures_surface_without_create "foo"
      "Validation error: bad flow." true [] [] (by decide)⟩

/-- C7: with `create_if_missing=false`, a first upload failure that
reports the missing project propagates the original error unchanged —
same message, no wrapping — and zero create-project calls are made. -/
theorem missing_project_without_create_propagates
    (pn m : String) (ups : List UpResp) (crs : List CrResp)
    (_h : strEndsWith m missingSuffix = true) :
    upload_project pn false (UpResp.err m :: ups) crs =
      ⟨UpOutcome.failure m, 1, []⟩ := by
  simp [upload_project, uploadLoopWith]

theorem missing_project_without_create_propagates_witness :
    strEndsWith "Project foo doesn\x27t exist." missingSuffix = true ∧
    upload_project "foo" false
        [UpResp.err "Project foo doesn\x27t exist."] [CrResp.ok] =
      ⟨UpOutcome.failure "Project foo doesn\x27t exist.", 1, []⟩ :=
  ⟨by decide,
    missing_project_without_create_propagates "foo"
      "Project foo doesn\x27t exist." [] [CrResp.ok] (by decide)⟩

/-- C4: when the remote transport fails with its 500 error during log
retrieval, `view_log` raises the domain error rather than the raw
transport error: with a job requested the message names both the
execution id and the job name, and without one it is exactly the
message naming the execution id alone. -/
theorem view_log_translates_transport_500 (e j : String) :
    (view_log e [j] LogFetch.http500 =
        LogResult.domainError
          ("Execution " ++ e ++ " and/or job " ++ pyListRepr [j] ++
            " not found.") ∧
      containsStr
        ("Execution " ++ e ++ " and/or job " ++ pyListRepr [j] ++
          " not found.") e ∧
      containsStr
        ("Execution " ++ e ++ " and/or job " ++ pyListRepr [j] ++
          " not found.") j) ∧
    (view_log e [] LogFetch.http500 =
        LogResult.domainError ("Execution " ++ e ++ " not found.") ∧
      containsStr ("Execution " ++ e ++ " not found.") e) := by
  refine ⟨⟨rfl,
      ⟨"Execution ",
        " and/or job " ++ pyListRepr [j] ++ " not found.", ?_⟩,
      ⟨"Execution " ++ e ++ " and/or job " ++ "[" ++ "\x27",
        "\x27" ++ "]" ++ " not found.", ?_⟩⟩,
    rfl, ⟨"Execution ", " not found.", ?_⟩⟩
  · simp only [String.append_assoc]
  · simp only [pyListRepr, List.map_cons, List.map_nil, joinWith,
      String.append_assoc]
  · simp only [String.append_assoc]

/-- C10: the listing output of `view_info` is a pure, deterministic
function of the in-memory project — no session is built and no remote
call occurs: the plain listing is the job names in sorted order, the
`--options` listing writes the jobs in sorted name order, and the
`--files` listing writes the file entries sorted by
`(local path, archive path)`. -/
theorem view_info_listing_sorted (p : ProjectModel)
    (rel : String → String) (opts : String) :
    (view_info_lines p rel false Option.none = sortedNames p ∧
      List.Sorted (· ≤ ·) (sortedNames p) ∧
      List.Perm (sortedNames p) (p.jobs.map Prod.fst)) ∧
    (view_info_lines p rel false (Option.some opts) =
        (sortedJobs p).map (fun j =>
          j.1 ++ "\t" ++
            joinWith "\t" ((pySplit opts ',').map (optGetD j.2))) ∧
      List.Sorted (· ≤ ·) ((sortedJobs p).map Prod.fst) ∧
      List.Perm (sortedJobs p) p.jobs) ∧
    (view_info_lines p rel true Option.none =
        (sortedFiles p).map (fun f => rel f.1 ++ "\t" ++ f.2) ∧
      List.Sorted fileLe (sortedFiles p) ∧
      List.Perm (sortedFiles p) p.files) := by
  refine ⟨⟨rfl, ?_, ?_⟩, ⟨rfl, ?_, ?_⟩, ⟨rfl, ?_, ?_⟩⟩
  · exact List.sorted_insertionSort _ _
  · exact List.perm_insertionSort _ _
  · exact List.Pairwise.map _ (fun a b h => h)
      (List.sorted_insertionSort jobLe p.jobs)
  · exact List.perm_insertionSort _ _
  · exact List.sorted_insertionSort _ _
  · exact List.perm_insertionSort _ _

end AzkabanCLI
